import Mathlib

/-!
Verification of the goss static site generator (src/main.go) against its
natural-language specification.

Strings from the Go program are modelled as lists of characters (Go strings
are byte sequences; every construct used here is byte-per-character ASCII).
Relative filesystem paths are lists of path components.  External
collaborators (the YAML decoder, the markdown converter, the template
engine, the filesystem) are passed in as explicit function parameters or
records, following the spec which places them out of scope.
-/

namespace Goss

/-- Path component or file name: a Go string, modelled as a list of characters. -/
abbrev Name := List Char

/-- Relative filesystem path as a list of components. -/
abbrev Path := List Name

/-- Go strings.TrimSuffix: removes the suffix when present, otherwise returns
the string unchanged. -/
def trimSuffix (s suffix : List Char) : List Char :=
  if suffix.isSuffixOf s then s.take (s.length - suffix.length) else s

/-- Go strings.HasPrefix(name, \x22.\x22): the hidden-entry test used by the
build loop and the change watcher (src/main.go lines 143, 415, 453). -/
def startsWithDot (n : Name) : Bool :=
  match n with
  | '.' :: _ => true
  | _ => false

/-- Go filepath.Ext applied to a base name: the suffix beginning at the final
dot, empty when the name has no dot (src/main.go line 167 applies it to the
full path, but its value only depends on the final path component). -/
def fileExt (n : Name) : Name :=
  if '.' ∈ n then '.' :: ((n.reverse.takeWhile (fun c => c ≠ '.')).reverse) else []

/-- Go isMarkdownFile (src/main.go lines 166-169): the lower-cased extension
is one of .md, .markdown, .mkd, .mdown. -/
def isMarkdownFile (n : Name) : Bool :=
  let ext := (fileExt n).map Char.toLower
  ext = ".md".toList || ext = ".markdown".toList || ext = ".mkd".toList || ext = ".mdown".toList

/-- Arbitrary YAML value, the model of what the YAML collaborator may bind to
an unrecognized front-matter key (Go interface value). -/
inductive YamlValue where
  | scalar (s : List Char)
  | seq (items : List YamlValue)
  | dict (entries : List (List Char × YamlValue))

/-- Go FrontMatter struct (src/main.go lines 33-40); the zero value has all
fields empty. -/
structure FrontMatter where
  title : List Char := []
  template : List Char := []
  description : List Char := []
  date : List Char := []
  tags : List (List Char) := []
  custom : List (List Char × YamlValue) := []

/-- Zero value of the FrontMatter struct. -/
def emptyFrontMatter : FrontMatter := {}

/-- Go strings.Index for a fixed needle: index of the first occurrence of
needle in haystack, none when absent. -/
def strIndex (needle : List Char) : List Char → Option Nat
  | [] => if needle = [] then some 0 else none
  | c :: rest =>
      if needle.isPrefixOf (c :: rest) then some 0
      else (strIndex needle rest).map (· + 1)

/-- Front-matter delimiter line prefix used by parseFrontMatter. -/
def fmDelim : List Char := "---\n".toList

/-- Go parseFrontMatter (src/main.go lines 190-215).  The YAML collaborator
(gopkg.in/yaml.v3 Unmarshal) is passed in as yamlDecode; a decode failure is
modelled as none, in which case the Go code logs the error and returns the
still-zero FrontMatter value together with the already-computed body. -/
def parseFrontMatter (yamlDecode : List Char → Option FrontMatter) (content : List Char) :
    FrontMatter × List Char :=
  if fmDelim.isPrefixOf content then
    match strIndex fmDelim (content.drop 4) with
    | some endIndex =>
        let frontMatterContent := (content.drop 4).take endIndex
        let markdownContent := content.drop (endIndex + 8)
        match yamlDecode frontMatterContent with
        | some fm => (fm, markdownContent)
        | none => (emptyFrontMatter, markdownContent)
    | none => (emptyFrontMatter, content)
  else (emptyFrontMatter, content)

/-- Go writeHTMLFile path computation (src/main.go lines 301-311), expressed
on the relative output path split into directory components and base name.
Only the name index.md, compared byte-for-byte, keeps its directory; every
other markdown file name gets its own directory with an index.html inside. -/
def writeHTMLPath (dirs : List Name) (base : Name) : Path :=
  if base = "index.md".toList then
    dirs ++ [trimSuffix base (fileExt base) ++ ".html".toList]
  else
    dirs ++ [trimSuffix base (fileExt base), "index.html".toList]

/-- Value stored in the template data map: Go wraps the converted fragment in
template.HTML while the named front-matter fields stay plain strings and
custom fields keep their decoded YAML values. -/
inductive TmplValue where
  | str (s : List Char)
  | html (s : List Char)
  | yaml (v : YamlValue)

/-- Template data map (Go map from string to interface value), modelled as an
assoc list updated in place. -/
abbrev TmplData := List (Name × TmplValue)

/-- Go map assignment m[k] = v on the assoc-list model: replaces the binding
when the key is present, otherwise appends it. -/
def setKey (m : TmplData) (k : Name) (v : TmplValue) : TmplData :=
  if (m.find? (fun e => e.1 = k)).isSome
  then m.map (fun e => if e.1 = k then (k, v) else e)
  else m ++ [(k, v)]

/-- Template data construction (src/main.go lines 259-269): the four named
fields, then every custom front-matter entry assigned on top (a custom key
equal to a reserved name overwrites it). -/
def templateData (fm : FrontMatter) (htmlContent : List Char) : TmplData :=
  let base : TmplData :=
    [("Title".toList, .str fm.title),
     ("Description".toList, .str fm.description),
     ("Date".toList, .str fm.date),
     ("Content".toList, .html htmlContent)]
  fm.custom.foldl (fun m kv => setKey m kv.1 (.yaml kv.2)) base

/-- Template name resolution (src/main.go lines 272-275): the front-matter
template field when non-empty, else default.html. -/
def resolveTemplateName (fm : FrontMatter) : Name :=
  if fm.template = [] then "default.html".toList else fm.template

/-- Minimal fallback page (src/main.go lines 282, 292): a bare wrapper around
the converted HTML fragment. -/
def fallbackPage (htmlContent : List Char) : List Char :=
  "<html><body>".toList ++ htmlContent ++ "</body></html>".toList

/-- Outcome of renderMarkdown for one markdown file: either nothing is
written (read or conversion failure, src/main.go lines 220-224 and 237-240)
or one page is written through writeHTMLFile. -/
inductive RenderOutcome where
  | noOutput
  | page (content : List Char)
deriving DecidableEq

/-- External collaborators consumed by renderMarkdown for one input file:
the source read, the markdown converter, template loading by name and
template execution.  Failures are modelled as none. -/
structure RenderEnv where
  readFile : Option (List Char)
  convert : List Char → Option (List Char)
  loadTemplate : Name → Option (List Char)
  execTemplate : List Char → TmplData → Option (List Char)

/-- Go renderMarkdown control flow (src/main.go lines 218-298).  A read or
conversion failure writes nothing; a template load or execution failure
falls back to the minimal page around the converted fragment; otherwise the
executed template output is written. -/
def renderMarkdown (yamlDecode : List Char → Option FrontMatter) (env : RenderEnv) :
    RenderOutcome :=
  match env.readFile with
  | none => .noOutput
  | some content =>
    let parsed := parseFrontMatter yamlDecode content
    match env.convert parsed.2 with
    | none => .noOutput
    | some htmlContent =>
      match env.loadTemplate (resolveTemplateName parsed.1) with
      | none => .page (fallbackPage htmlContent)
      | some tmpl =>
        match env.execTemplate tmpl (templateData parsed.1 htmlContent) with
        | none => .page (fallbackPage htmlContent)
        | some out => .page out

/-- Entry of the input tree as visited by filepath.Walk, with its path
relative to the input root split into directory components and base name. -/
structure Entry where
  dirs : List Name
  base : Name
  isDir : Bool
  content : List Char
deriving DecidableEq

/-- Relative path of an entry. -/
def epath (e : Entry) : Path := e.dirs ++ [e.base]

/-- Filesystem effect produced under the output root. -/
inductive FsAction where
  | mkdirAll (p : Path)
  | writeFile (p : Path) (content : List Char)
deriving DecidableEq

/-- Per-entry dispatch of the build walk (src/main.go lines 128-151):
directories are mirrored, markdown files are rendered and placed through
writeHTMLFile, other files are copied unless their base name starts with a
dot.  The markdown test comes before the hidden-file test, so hidden
markdown files are rendered. -/
def processEntry (render : Entry → RenderOutcome) (e : Entry) : List FsAction :=
  if e.isDir then [.mkdirAll (epath e)]
  else if isMarkdownFile e.base then
    match render e with
    | .noOutput => []
    | .page c =>
        let out := writeHTMLPath e.dirs e.base
        [.mkdirAll out.dropLast, .writeFile out c]
  else if startsWithDot e.base then []
  else [.mkdirAll e.dirs, .writeFile (epath e) e.content]

/-- Actions of the main processing walk over all entries, in walk order. -/
def entriesActions (render : Entry → RenderOutcome) : List Entry → List FsAction
  | [] => []
  | e :: es => processEntry render e ++ entriesActions render es

/-- Name of the robots file. -/
def robotsName : Name := "robots.txt".toList

/-- Default robots.txt content synthesized when the input tree has none
(src/main.go lines 336-338; a raw string with no trailing newline). -/
def defaultRobots : List Char :=
  "User-agent: *\nAllow: /\nSitemap: sitemap.xml".toList

/-- Go handleRobotsTxt (src/main.go lines 326-347): when the input tree has
an entry named robots.txt, copy it verbatim (copying a directory fails
silently and writes nothing); otherwise write the fixed default text. -/
def handleRobotsTxt (entries : List Entry) : List FsAction :=
  match entries.find? (fun e => epath e = [robotsName]) with
  | some e => if e.isDir then [] else [.writeFile [robotsName] e.content]
  | none => [.writeFile [robotsName] defaultRobots]

/-- All output actions of one successful build pass, in program order. -/
def buildActions (render : Entry → RenderOutcome) (entries : List Entry) : List FsAction :=
  entriesActions render entries ++ handleRobotsTxt entries

/-- Result of one build invocation: either it aborts before touching the
output root, or it deletes and recreates the root and applies the actions. -/
inductive BuildEffect where
  | aborted
  | built (actions : List FsAction)

/-- Go build (src/main.go lines 86-163): the input and templates directories
are checked first; only when both exist is the output root removed,
recreated, and filled by the walk and the robots step. -/
def build (render : Entry → RenderOutcome) (inputDirExists templatesDirExists : Bool)
    (entries : List Entry) : BuildEffect :=
  if inputDirExists = false then .aborted
  else if templatesDirExists = false then .aborted
  else .built (buildActions render entries)

/-- Output tree after a build invocation, given the action list that
described it beforehand: an aborted build leaves it untouched, a completed
build replaces it by its own actions (the root is deleted and recreated). -/
def applyBuild (prev : List FsAction) : BuildEffect → List FsAction
  | .aborted => prev
  | .built as => as

/-- Content of the file at p after applying the actions in order to an empty
output root: the last write to p wins. -/
def finalContent (as : List FsAction) (p : Path) : Option (List Char) :=
  as.foldl
    (fun acc a =>
      match a with
      | .writeFile q c => if q = p then some c else acc
      | .mkdirAll _ => acc)
    none

/-- File as visited by the watcher walks, with its path split into directory
components and base name, and its modification time in whole time units. -/
structure WFile where
  dirs : List Name
  base : Name
  modTime : Nat
deriving DecidableEq

/-- Full path of a watched file. -/
def wpath (f : WFile) : Path := f.dirs ++ [f.base]

/-- Watch map from file path to last observed modification time, modelled as
an assoc list where the first binding for a key wins. -/
abbrev WatchMap := List (Path × Nat)

/-- Lookup in the watch map: first binding wins. -/
def lookupMap : WatchMap → Path → Option Nat
  | [], _ => none
  | (q, t) :: m, p => if q = p then some t else lookupMap m p

/-- Go map assignment lastModified[path] = t, modelled as a shadowing cons. -/
def insertMap (m : WatchMap) (p : Path) (t : Nat) : WatchMap := (p, t) :: m

/-- Visibility of a file to the watcher walks: filepath.SkipDir on a hidden
directory prunes its whole subtree and hidden files are skipped, so a file
is visited exactly when no component of its path starts with a dot
(src/main.go lines 414-420 and 452-458). -/
def visibleFile (f : WFile) : Bool :=
  !(f.dirs.any startsWithDot || startsWithDot f.base)

/-- Go strings.HasSuffix(path, \x22.tmp\x22) on a file path: only the base
name can carry the suffix (src/main.go line 423). -/
def endsTmp (f : WFile) : Bool := ".tmp".toList.isSuffixOf f.base

/-- State threaded through one detection walk: the watch map being mutated in
place, the changed flag, and the last changed path recorded for logging. -/
structure ScanState where
  map : WatchMap
  filesChanged : Bool
  changedFile : Option Path
deriving DecidableEq

/-- Per-file step of a detection walk (src/main.go lines 409-440 for the
input tree with skipTmp true, lines 447-473 for the template tree with
skipTmp false, which has no temporary-file check): hidden entries are
skipped, then the modification time is compared against the map and any new
or newer file marks a change and is written back into the map at once. -/
def checkFile (skipTmp : Bool) (st : ScanState) (f : WFile) : ScanState :=
  if visibleFile f = false then st
  else if skipTmp && endsTmp f then st
  else
    match lookupMap st.map (wpath f) with
    | none => ⟨insertMap st.map (wpath f) f.modTime, true, some (wpath f)⟩
    | some lastMod =>
        if lastMod < f.modTime then ⟨insertMap st.map (wpath f) f.modTime, true, some (wpath f)⟩
        else st

/-- One poll tick of the detection goroutine (src/main.go lines 403-477):
the input tree is walked first, and the template tree is walked only when
the input walk detected no change. -/
def tick (inputFiles templateFiles : List WFile) (m : WatchMap) : ScanState :=
  let s1 := inputFiles.foldl (checkFile true) ⟨m, false, none⟩
  if s1.filesChanged then s1 else templateFiles.foldl (checkFile false) s1

/-- Go initializeFileMap (src/main.go lines 380-390): walks a tree and
assigns the current modification time of every file into the shared map.  It
never removes existing bindings and applies no hidden or temporary-file
filter. -/
def initializeFileMap (files : List WFile) (m : WatchMap) : WatchMap :=
  files.foldl (fun m f => insertMap m (wpath f) f.modTime) m

/-- Watcher state across ticks: the shared modification-time map and the
time of the last rebuild. -/
structure ServeState where
  lastModified : WatchMap
  lastRebuild : Nat
deriving DecidableEq

/-- One full tick of the serve loop at time now (src/main.go lines 403-492):
run detection, and when a change was found and at least one time unit has
passed since the last rebuild, rebuild and re-run initializeFileMap on both
trees over the map as mutated by detection.  Returns the new state and
whether a rebuild happened. -/
def serveStep (inputFiles templateFiles : List WFile) (now : Nat) (st : ServeState) :
    ServeState × Bool :=
  let s := tick inputFiles templateFiles st.lastModified
  if s.filesChanged && decide (1 ≤ now - st.lastRebuild) then
    (⟨initializeFileMap templateFiles (initializeFileMap inputFiles s.map), now⟩, true)
  else (⟨s.map, st.lastRebuild⟩, false)

/-- File f is up to date in map m: its path is bound to a time at least its
modification time, so the detection step does not flag it. -/
def fileUnchanged (m : WatchMap) (f : WFile) : Prop :=
  ∃ t, lookupMap m (wpath f) = some t ∧ f.modTime ≤ t

/-- Lines of a text, splitting on newline characters.  This follows the
wording of the specification (a line consisting solely of three dashes) and
exists only to state spec-side conditions; the program itself never splits
the text into lines. -/
def specLines : List Char → List (List Char)
  | [] => [[]]
  | c :: rest =>
    match specLines rest with
    | [] => [[c]]
    | l :: ls => if c = '\n' then [] :: l :: ls else (c :: l) :: ls

/-! ## Helper lemmas -/

/-- The body component returned by parseFrontMatter does not depend on the
YAML collaborator: the split points are computed before decoding. -/
theorem parseFrontMatter_body_indep (d₁ d₂ : List Char → Option FrontMatter)
    (c : List Char) : (parseFrontMatter d₁ c).2 = (parseFrontMatter d₂ c).2 := by
  unfold parseFrontMatter
  by_cases hp : fmDelim.isPrefixOf c
  · simp only [hp, if_true]
    cases hidx : strIndex fmDelim (c.drop 4) with
    | none => rfl
    | some endIndex =>
        cases h₁ : d₁ ((c.drop 4).take endIndex) <;>
          cases h₂ : d₂ ((c.drop 4).take endIndex) <;>
            simp [h₁, h₂]
  · simp [hp]

/-- Splitting a walk in the middle of its entry list splits its actions. -/
theorem entriesActions_append (render : Entry → RenderOutcome) (l₁ l₂ : List Entry) :
    entriesActions render (l₁ ++ l₂) = entriesActions render l₁ ++ entriesActions render l₂ := by
  induction l₁ with
  | nil => rfl
  | cons e es ih => simp [entriesActions, ih]

/-- The last action writing to p decides its final content. -/
theorem finalContent_append_write (as : List FsAction) (p : Path) (c : List Char) :
    finalContent (as ++ [.writeFile p c]) p = some c := by
  unfold finalContent
  rw [List.foldl_append]
  simp

/-! ## Claims -/

/-- C1 counterexample: the claim states that every markdown file whose base
name is index.(ext) for any recognized markdown extension is renamed in
place to index.html, but the program compares the base name to the literal
index.md only, so blog/index.markdown is placed at blog/index/index.html
instead of blog/index.html. -/
theorem C1_counterexample :
    isMarkdownFile "index.markdown".toList = true ∧
    writeHTMLPath ["blog".toList] "index.markdown".toList
      = ["blog".toList, "index".toList, "index.html".toList] ∧
    writeHTMLPath ["blog".toList] "index.markdown".toList
      ≠ ["blog".toList, "index.html".toList] := by decide

/-- C1 amended: only a markdown file whose base name is exactly index.md is
renamed in place to index.html in its directory; every other markdown file,
including index.markdown, index.mkd, index.mdown and case variants of
index.md, is placed at (same directory)/(stem)/index.html.  The two example
mappings of the claim hold. -/
theorem C1_output_path_mapping (dirs : List Name) (base : Name) :
    (base = "index.md".toList →
      writeHTMLPath dirs base = dirs ++ ["index.html".toList]) ∧
    (base ≠ "index.md".toList →
      writeHTMLPath dirs base
        = dirs ++ [trimSuffix base (fileExt base), "index.html".toList]) ∧
    writeHTMLPath ["blog".toList] "post.md".toList
      = ["blog".toList, "post".toList, "index.html".toList] ∧
    writeHTMLPath ["blog".toList] "index.md".toList
      = ["blog".toList, "index.html".toList] := by
  refine ⟨?_, ?_, by decide, by decide⟩
  · intro h
    subst h
    unfold writeHTMLPath
    rw [if_pos rfl]
    have hx : trimSuffix "index.md".toList (fileExt "index.md".toList) ++ ".html".toList
        = "index.html".toList := by decide
    rw [hx]
  · intro h
    unfold writeHTMLPath
    rw [if_neg h]

/-- C1 witness: the amended mapping evaluated on concrete inputs. -/
theorem C1_output_path_mapping_witness :
    writeHTMLPath ["blog".toList] "post.md".toList
      = ["blog".toList]
        ++ [trimSuffix "post.md".toList (fileExt "post.md".toList), "index.html".toList] ∧
    writeHTMLPath ["blog".toList] "index.md".toList
      = ["blog".toList] ++ ["index.html".toList] :=
  ⟨(C1_output_path_mapping ["blog".toList] "post.md".toList).2.1 (by decide),
   (C1_output_path_mapping ["blog".toList] "index.md".toList).1 rfl⟩

/-- C2 counterexample: the claim states that no dot-named file or directory
ever appears under the output root, but the markdown test precedes the
hidden-file test, so the hidden markdown file .secret.md is rendered and the
build creates the dot-named output directory .secret. -/
theorem C2_counterexample :
    FsAction.mkdirAll [".secret".toList] ∈
      buildActions (fun _ => .page []) [⟨[], ".secret.md".toList, false, []⟩] ∧
    FsAction.writeFile [".secret".toList, "index.html".toList] [] ∈
      buildActions (fun _ => .page []) [⟨[], ".secret.md".toList, false, []⟩] ∧
    startsWithDot ".secret".toList = true ∧
    processEntry (fun _ => .page []) ⟨[], ".secret.md".toList, false, []⟩ ≠ [] := by decide

/-- C2 amended: a non-directory entry whose base name starts with a dot and
that is not a markdown file is skipped entirely by the build (never copied);
hidden directories are still mirrored and hidden markdown files are still
rendered, so dot-named entries can appear under the output root. -/
theorem C2_hidden_asset_skipped (render : Entry → RenderOutcome) (e : Entry)
    (hfile : e.isDir = false) (hmd : isMarkdownFile e.base = false)
    (hdot : startsWithDot e.base = true) :
    processEntry render e = [] := by
  simp [processEntry, hfile, hmd, hdot]

/-- C2 witness: a hidden dotfile asset produces no output action. -/
theorem C2_hidden_asset_skipped_witness :
    processEntry (fun _ => .noOutput) ⟨[], ".env".toList, false, "k=v".toList⟩ = [] :=
  C2_hidden_asset_skipped (fun _ => .noOutput) ⟨[], ".env".toList, false, "k=v".toList⟩
    (by decide) (by decide) (by decide)

/-- C3 counterexample: the claim states that a text beginning with a
delimiter line but containing no closing line consisting solely of three
dashes is returned unchanged, but the program searches for the four-byte
substring dash dash dash newline anywhere, so the text whose lines after the
opening are abc--- and def is split at the mid-line occurrence and the body
returned is def, not the original text. -/
theorem C3_counterexample :
    fmDelim.isPrefixOf "---\nabc---\ndef".toList = true ∧
    "---".toList ∉ (specLines "---\nabc---\ndef".toList).tail ∧
    (parseFrontMatter (fun _ => none) "---\nabc---\ndef".toList).2
      ≠ "---\nabc---\ndef".toList := by decide

/-- C3 amended: when the text does not begin with the delimiter line, or
when the text after the first four characters contains no occurrence of the
four-character substring dash dash dash newline, the splitter returns the
zero FrontMatter and the entire original text unchanged, for any YAML
collaborator. -/
theorem C3_no_front_matter_detected (d : List Char → Option FrontMatter)
    (content : List Char)
    (h : fmDelim.isPrefixOf content = false ∨ strIndex fmDelim (content.drop 4) = none) :
    parseFrontMatter d content = (emptyFrontMatter, content) := by
  unfold parseFrontMatter
  rcases h with h | h
  · simp [h]
  · by_cases hp : fmDelim.isPrefixOf content <;> simp [hp, h]

/-- C3 witness: both no-front-matter shapes evaluated on concrete inputs. -/
theorem C3_no_front_matter_detected_witness :
    parseFrontMatter (fun _ => none) "hello".toList
      = (emptyFrontMatter, "hello".toList) ∧
    parseFrontMatter (fun _ => none) "---\ntitle: x".toList
      = (emptyFrontMatter, "---\ntitle: x".toList) :=
  ⟨C3_no_front_matter_detected (fun _ => none) "hello".toList (Or.inl (by decide)),
   C3_no_front_matter_detected (fun _ => none) "---\ntitle: x".toList (Or.inr (by decide))⟩

/-- C7 counterexample: the claim states that on a decode failure the body is
everything after the opening delimiter location used for the search, but the
program computes the body as everything after the closing delimiter before
decoding: with an always-failing decoder the metadata is empty, yet the body
is the text after the closing delimiter, not the text after the opening
one. -/
theorem C7_counterexample :
    parseFrontMatter (fun _ => none) "---\nabc\n---\nbody".toList
      = (emptyFrontMatter, "body".toList) ∧
    "body".toList ≠ ("---\nabc\n---\nbody".toList).drop 4 :=
  ⟨rfl, by decide⟩

/-- C7 amended: when the text begins with the delimiter, the search finds
the closing delimiter at some index, and decoding the region between the
delimiters fails, the splitter yields the zero FrontMatter with the body
taken as everything after the closing delimiter found by the search. -/
theorem C7_decode_failure_body (d : List Char → Option FrontMatter)
    (content : List Char) (i : Nat)
    (hpre : fmDelim.isPrefixOf content = true)
    (hidx : strIndex fmDelim (content.drop 4) = some i)
    (hfail : d ((content.drop 4).take i) = none) :
    parseFrontMatter d content = (emptyFrontMatter, content.drop (i + 8)) := by
  unfold parseFrontMatter
  simp [hpre, hidx, hfail]

/-- C7 witness: decode failure on a concrete document. -/
theorem C7_decode_failure_body_witness :
    parseFrontMatter (fun _ => none) "---\nabc\n---\nbody".toList
      = (emptyFrontMatter, ("---\nabc\n---\nbody".toList).drop 12) :=
  C7_decode_failure_body (fun _ => none) "---\nabc\n---\nbody".toList 4
    (by decide) (by decide) rfl

/-- C4: when the named template of a markdown page fails to load, or its
execution fails, the output of that page is the minimal fallback wrapper around
the converted HTML fragment alone, and the build walk still processes every
entry before and after the entry of that page unchanged. -/
theorem C4_template_failure_fallback
    (yamlDecode : List Char → Option FrontMatter) (env : RenderEnv)
    (content htmlContent : List Char)
    (render : Entry → RenderOutcome) (e : Entry) (pre post : List Entry)
    (hread : env.readFile = some content)
    (hconv : env.convert (parseFrontMatter yamlDecode content).2 = some htmlContent)
    (hfail :
      env.loadTemplate (resolveTemplateName (parseFrontMatter yamlDecode content).1) = none ∨
      ∃ tmpl,
        env.loadTemplate (resolveTemplateName (parseFrontMatter yamlDecode content).1)
          = some tmpl ∧
        env.execTemplate tmpl
          (templateData (parseFrontMatter yamlDecode content).1 htmlContent) = none) :
    renderMarkdown yamlDecode env = .page (fallbackPage htmlContent) ∧
    entriesActions render (pre ++ e :: post) =
      entriesActions render pre ++ processEntry render e ++ entriesActions render post := by
  constructor
  · unfold renderMarkdown
    rw [hread]
    simp only [hconv]
    rcases hfail with h | ⟨tmpl, hl, he⟩
    · simp [h]
    · simp [hl, he]
  · rw [entriesActions_append]
    simp [entriesActions]

/-- C4 witness: a concrete environment whose template loader always fails;
the page degrades to the fallback wrapper and a one-entry walk still splits
as walk order dictates. -/
theorem C4_template_failure_fallback_witness :
    renderMarkdown (fun _ => none)
      ⟨some "hi".toList, fun s => some s, fun _ => none, fun _ _ => none⟩
      = .page (fallbackPage "hi".toList) ∧
    entriesActions (fun _ => .noOutput) ([] ++ ⟨[], "a.md".toList, false, []⟩ :: []) =
      entriesActions (fun _ => .noOutput) []
        ++ processEntry (fun _ => .noOutput) ⟨[], "a.md".toList, false, []⟩
        ++ entriesActions (fun _ => .noOutput) [] :=
  C4_template_failure_fallback (fun _ => none)
    ⟨some "hi".toList, fun s => some s, fun _ => none, fun _ _ => none⟩
    "hi".toList "hi".toList (fun _ => .noOutput) ⟨[], "a.md".toList, false, []⟩ [] []
    rfl rfl (Or.inl rfl)

/-- C5: after a completed build, the final content of robots.txt under the
output root is the verbatim input robots.txt when the input tree has that
file, and the fixed default text otherwise. -/
theorem C5_robots_txt (render : Entry → RenderOutcome) (entries : List Entry) :
    (entries.find? (fun x => epath x = [robotsName]) = none →
      finalContent (buildActions render entries) [robotsName] = some defaultRobots) ∧
    (∀ e, entries.find? (fun x => epath x = [robotsName]) = some e → e.isDir = false →
      finalContent (buildActions render entries) [robotsName] = some e.content) := by
  constructor
  · intro hfind
    unfold buildActions handleRobotsTxt
    rw [hfind]
    exact finalContent_append_write _ _ _
  · intro e hfind hdir
    unfold buildActions handleRobotsTxt
    rw [hfind]
    simp only [hdir, Bool.false_eq_true, if_false]
    exact finalContent_append_write _ _ _

/-- C5 witness: both branches on concrete trees, one with a custom
robots.txt in the input tree and one without. -/
theorem C5_robots_txt_witness :
    finalContent
        (buildActions (fun _ => .noOutput) [⟨[], robotsName, false, "custom".toList⟩])
        [robotsName] = some "custom".toList ∧
    finalContent (buildActions (fun _ => .noOutput) []) [robotsName]
      = some defaultRobots :=
  ⟨(C5_robots_txt (fun _ => .noOutput) [⟨[], robotsName, false, "custom".toList⟩]).2
      ⟨[], robotsName, false, "custom".toList⟩ rfl rfl,
   (C5_robots_txt (fun _ => .noOutput) []).1 rfl⟩

/-- C6: when the input directory or the templates directory does not exist,
the build aborts before creating or altering anything under the output root,
leaving the output tree exactly as it was. -/
theorem C6_missing_dir_aborts (render : Entry → RenderOutcome)
    (inputDirExists templatesDirExists : Bool) (entries : List Entry)
    (prev : List FsAction)
    (h : inputDirExists = false ∨ templatesDirExists = false) :
    build render inputDirExists templatesDirExists entries = .aborted ∧
    applyBuild prev (build render inputDirExists templatesDirExists entries) = prev := by
  have hb : build render inputDirExists templatesDirExists entries = .aborted := by
    unfold build
    rcases h with h | h
    · simp [h]
    · by_cases hi : inputDirExists = false <;> simp [hi, h]
  exact ⟨hb, by rw [hb]; rfl⟩

/-- C6 witness: a missing input directory leaves a concrete previous output
tree untouched. -/
theorem C6_missing_dir_aborts_witness :
    build (fun _ => .noOutput) false true [] = .aborted ∧
    applyBuild [.writeFile [robotsName] defaultRobots]
      (build (fun _ => .noOutput) false true []) = [.writeFile [robotsName] defaultRobots] :=
  C6_missing_dir_aborts (fun _ => .noOutput) false true []
    [.writeFile [robotsName] defaultRobots] (Or.inl rfl)

/-- Detection never removes a binding from the watch map and never lowers a
recorded time. -/
theorem checkFile_mono (b : Bool) (st : ScanState) (f : WFile) (p : Path) (t : Nat)
    (h : lookupMap st.map p = some t) :
    ∃ u, lookupMap (checkFile b st f).map p = some u ∧ t ≤ u := by
  unfold checkFile
  by_cases hv : visibleFile f = false
  · simp only [hv, if_true]
    exact ⟨t, h, Nat.le_refl t⟩
  · simp only [hv, if_false]
    by_cases htp : (b && endsTmp f) = true
    · simp only [htp, if_true]
      exact ⟨t, h, Nat.le_refl t⟩
    · simp only [htp, if_false]
      cases hl : lookupMap st.map (wpath f) with
      | none =>
          by_cases hp : wpath f = p
          · rw [hp] at hl
            rw [hl] at h
            cases h
          · exact ⟨t, by simpa [lookupMap, insertMap, hp] using h, Nat.le_refl t⟩
      | some lastMod =>
          by_cases hc : lastMod < f.modTime
          · simp only [hc, if_true]
            by_cases hp : wpath f = p
            · subst hp
              rw [hl] at h
              injection h with h
              subst h
              exact ⟨f.modTime, by simp [lookupMap, insertMap], Nat.le_of_lt hc⟩
            · exact ⟨t, by simpa [lookupMap, insertMap, hp] using h, Nat.le_refl t⟩
          · simp only [hc, if_false]
            exact ⟨t, h, Nat.le_refl t⟩

/-- Monotonicity of a whole detection walk over the watch map. -/
theorem foldl_checkFile_mono (b : Bool) (files : List WFile) (st : ScanState)
    (p : Path) (t : Nat) (h : lookupMap st.map p = some t) :
    ∃ u, lookupMap ((files.foldl (checkFile b) st).map) p = some u ∧ t ≤ u := by
  induction files generalizing st t with
  | nil => exact ⟨t, h, Nat.le_refl t⟩
  | cons f fs ih =>
      obtain ⟨u, hu, htu⟩ := checkFile_mono b st f p t h
      obtain ⟨v, hv, huv⟩ := ih (checkFile b st f) u hu
      exact ⟨v, by simpa using hv, Nat.le_trans htu huv⟩

/-- A file already up to date in the map stays up to date across any
detection walk. -/
theorem foldl_checkFile_keeps_unchanged (b : Bool) (files : List WFile)
    (st : ScanState) (g : WFile) (h : fileUnchanged st.map g) :
    fileUnchanged ((files.foldl (checkFile b) st).map) g := by
  obtain ⟨t, hl, hle⟩ := h
  obtain ⟨u, hu, htu⟩ := foldl_checkFile_mono b files st (wpath g) t hl
  exact ⟨u, hu, Nat.le_trans hle htu⟩

/-- After its own detection step, a visited file is up to date in the map:
either it was already, or its new modification time was written back. -/
theorem checkFile_records (b : Bool) (st : ScanState) (f : WFile)
    (hv : visibleFile f = true) (ht : (b && endsTmp f) = false) :
    fileUnchanged ((checkFile b st f).map) f := by
  unfold checkFile
  rw [if_neg (by simp [hv]), if_neg (by simp [ht])]
  cases hl : lookupMap st.map (wpath f) with
  | none => exact ⟨f.modTime, by simp [lookupMap, insertMap], Nat.le_refl _⟩
  | some lastMod =>
      by_cases hc : lastMod < f.modTime
      · simp only [hc, if_true]
        exact ⟨f.modTime, by simp [lookupMap, insertMap], Nat.le_refl _⟩
      · simp only [hc, if_false]
        exact ⟨lastMod, hl, Nat.le_of_not_lt hc⟩

/-- After a detection walk, every visited file of the walked tree is up to
date in the resulting map. -/
theorem foldl_checkFile_records (b : Bool) (files : List WFile) (st : ScanState)
    (f : WFile) (hf : f ∈ files) (hv : visibleFile f = true)
    (ht : (b && endsTmp f) = false) :
    fileUnchanged ((files.foldl (checkFile b) st).map) f := by
  induction files generalizing st with
  | nil => cases hf
  | cons g gs ih =>
      rcases List.mem_cons.mp hf with hfg | hfg
      · subst hfg
        simpa using
          foldl_checkFile_keeps_unchanged b gs (checkFile b st f) f
            (checkFile_records b st f hv ht)
      · simpa using ih (checkFile b st g) hfg

/-- A detection step on a skipped or up-to-date file leaves the whole scan
state untouched. -/
theorem checkFile_unchanged (b : Bool) (st : ScanState) (f : WFile)
    (h : visibleFile f = false ∨ (b && endsTmp f) = true ∨ fileUnchanged st.map f) :
    checkFile b st f = st := by
  unfold checkFile
  by_cases hv : visibleFile f = false
  · simp [hv]
  · rw [if_neg hv]
    by_cases htp : (b && endsTmp f) = true
    · simp [htp]
    · rw [if_neg htp]
      rcases h with h | h | h
      · exact absurd h hv
      · exact absurd h htp
      · obtain ⟨t, hl, hle⟩ := h
        rw [hl]
        simp [Nat.not_lt.mpr hle]

/-- A detection walk over a tree whose visited files are all up to date
leaves the whole scan state untouched. -/
theorem foldl_checkFile_unchanged (b : Bool) (files : List WFile) (st : ScanState)
    (h : ∀ f ∈ files, visibleFile f = true → (b && endsTmp f) = false →
      fileUnchanged st.map f) :
    files.foldl (checkFile b) st = st := by
  induction files with
  | nil => rfl
  | cons f fs ih =>
      have hf : checkFile b st f = st := by
        apply checkFile_unchanged
        by_cases hv : visibleFile f = false
        · exact Or.inl hv
        · by_cases htp : (b && endsTmp f) = true
          · exact Or.inr (Or.inl htp)
          · exact Or.inr (Or.inr (h f (List.mem_cons_self f fs)
              (by simpa using hv) (by simpa using htp)))
      rw [List.foldl_cons, hf, ih (fun g hg => h g (List.mem_cons_of_mem f hg))]

/-- A tick over trees whose visited files are all up to date detects nothing
and leaves the map untouched. -/
theorem tick_nochange (inputFiles templateFiles : List WFile) (m : WatchMap)
    (hin : ∀ f ∈ inputFiles, visibleFile f = true → endsTmp f = false →
      fileUnchanged m f)
    (htm : ∀ f ∈ templateFiles, visibleFile f = true → fileUnchanged m f) :
    tick inputFiles templateFiles m = ⟨m, false, none⟩ := by
  simp only [tick]
  have h1 : inputFiles.foldl (checkFile true) ⟨m, false, none⟩ = ⟨m, false, none⟩ :=
    foldl_checkFile_unchanged true inputFiles ⟨m, false, none⟩
      (fun f hf hv ht => hin f hf hv (by simpa using ht))
  rw [h1]
  rw [if_neg (by simp)]
  exact foldl_checkFile_unchanged false templateFiles ⟨m, false, none⟩
    (fun f hf hv _ => htm f hf hv)

/-- After a tick, every visited input file is up to date in the resulting
map, and so is every visited template file provided the template files were
already up to date beforehand (the template walk runs only when the input
walk found no change). -/
theorem tick_records (inputFiles templateFiles : List WFile) (m : WatchMap)
    (htm : ∀ f ∈ templateFiles, visibleFile f = true → fileUnchanged m f) :
    (∀ f ∈ inputFiles, visibleFile f = true → endsTmp f = false →
      fileUnchanged (tick inputFiles templateFiles m).map f) ∧
    (∀ f ∈ templateFiles, visibleFile f = true →
      fileUnchanged (tick inputFiles templateFiles m).map f) := by
  simp only [tick]
  by_cases hs : (inputFiles.foldl (checkFile true) ⟨m, false, none⟩).filesChanged = true
  · rw [if_pos hs]
    refine ⟨fun f hf hv ht => ?_, fun f hf hv => ?_⟩
    · exact foldl_checkFile_records true inputFiles ⟨m, false, none⟩ f hf hv (by simp [ht])
    · exact foldl_checkFile_keeps_unchanged true inputFiles ⟨m, false, none⟩ f (htm f hf hv)
  · rw [if_neg hs]
    refine ⟨fun f hf hv ht => ?_, fun f hf hv => ?_⟩
    · exact foldl_checkFile_keeps_unchanged false templateFiles _ f
        (foldl_checkFile_records true inputFiles ⟨m, false, none⟩ f hf hv (by simp [ht]))
    · exact foldl_checkFile_records false templateFiles _ f hf hv (by simp)

/-- A serve tick inside the debounce window never rebuilds: it only carries
the detection updates of the map forward. -/
theorem serveStep_no_rebuild (inputFiles templateFiles : List WFile) (now : Nat)
    (st : ServeState) (hdeb : now - st.lastRebuild < 1) :
    serveStep inputFiles templateFiles now st
      = (⟨(tick inputFiles templateFiles st.lastModified).map, st.lastRebuild⟩, false) := by
  unfold serveStep
  have hd : decide (1 ≤ now - st.lastRebuild) = false :=
    decide_eq_false (Nat.not_le.mpr hdeb)
  simp [hd]

/-- C8 counterexample: the claim states that a change to a file with the
temporary suffix never counts as a detected change in either tree, but the
template-tree walk has no temporary-file check, so a new page.tmp under the
template tree is detected as a change. -/
theorem C8_counterexample :
    endsTmp ⟨[], "page.tmp".toList, 7⟩ = true ∧
    visibleFile ⟨[], "page.tmp".toList, 7⟩ = true ∧
    (tick [] [⟨[], "page.tmp".toList, 7⟩] []).filesChanged = true := by decide

/-- C8 amended: hidden entries are skipped by the detection walks of both
trees, the temporary suffix is skipped only by the input-tree walk, and the
template tree is walked only on ticks where the input walk detected no
change. -/
theorem C8_watch_skip_rules (b : Bool) (st : ScanState) (f : WFile)
    (inputFiles templateFiles : List WFile) (m : WatchMap) :
    (visibleFile f = false → checkFile b st f = st) ∧
    (endsTmp f = true → checkFile true st f = st) ∧
    ((inputFiles.foldl (checkFile true) ⟨m, false, none⟩).filesChanged = true →
      tick inputFiles templateFiles m
        = inputFiles.foldl (checkFile true) ⟨m, false, none⟩) := by
  refine ⟨fun hv => ?_, fun ht => ?_, fun hs => ?_⟩
  · exact checkFile_unchanged b st f (Or.inl hv)
  · by_cases hv : visibleFile f = false
    · exact checkFile_unchanged true st f (Or.inl hv)
    · exact checkFile_unchanged true st f (Or.inr (Or.inl (by simp [ht])))
  · simp only [tick]
    rw [if_pos hs]

/-- C8 witness: a hidden file and a temporary input file are both skipped by
detection on a concrete state. -/
theorem C8_watch_skip_rules_witness :
    checkFile false ⟨[], false, none⟩ ⟨[], ".hidden".toList, 4⟩ = ⟨[], false, none⟩ ∧
    checkFile true ⟨[], false, none⟩ ⟨[], "draft.tmp".toList, 4⟩ = ⟨[], false, none⟩ :=
  ⟨(C8_watch_skip_rules false ⟨[], false, none⟩ ⟨[], ".hidden".toList, 4⟩ [] [] []).1
      (by decide),
   (C8_watch_skip_rules true ⟨[], false, none⟩ ⟨[], "draft.tmp".toList, 4⟩ [] [] []).2.1
      (by decide)⟩

/-- C9 counterexample: the claim states that after a rebuild the watch map
is discarded and rebuilt so that no entry from before survives, but
initializeFileMap only assigns over the existing shared map, so on a
concrete rebuild the entry for a path present in no watched tree survives
with its old timestamp. -/
theorem C9_counterexample :
    (serveStep [⟨[], "a.md".toList, 9⟩] [] 1 ⟨[(["gone.md".toList], 5)], 0⟩).2 = true ∧
    ["gone.md".toList] ∉ ([⟨[], "a.md".toList, 9⟩] : List WFile).map wpath ∧
    lookupMap
      (serveStep [⟨[], "a.md".toList, 9⟩] [] 1 ⟨[(["gone.md".toList], 5)], 0⟩).1.lastModified
      ["gone.md".toList] = some 5 := by decide

/-- C9 amended: immediately after every rebuild the watch map is refreshed
in place by a fresh scan of both trees through initializeFileMap: bindings
for paths not in the scanned trees are left exactly as they were (so an
entry for a since-deleted path survives), and no binding is ever removed. -/
theorem C9_rescan_updates_in_place (files : List WFile) (m : WatchMap) (p : Path)
    (t : Nat) (inputFiles templateFiles : List WFile) (now : Nat) (st : ServeState) :
    (p ∉ files.map wpath →
      lookupMap (initializeFileMap files m) p = lookupMap m p) ∧
    (lookupMap m p = some t → ∃ u, lookupMap (initializeFileMap files m) p = some u) ∧
    ((tick inputFiles templateFiles st.lastModified).filesChanged = true →
      1 ≤ now - st.lastRebuild →
      (serveStep inputFiles templateFiles now st).1.lastModified
        = initializeFileMap templateFiles
            (initializeFileMap inputFiles
              (tick inputFiles templateFiles st.lastModified).map)) := by
  refine ⟨?_, ?_, ?_⟩
  · intro hp
    induction files generalizing m with
    | nil => rfl
    | cons f fs ih =>
        have hne : wpath f ≠ p := by
          intro h
          exact hp (by rw [List.map_cons, ← h]; exact List.mem_cons_self _ _)
        have htail : p ∉ fs.map wpath := by
          intro h
          exact hp (by rw [List.map_cons]; exact List.mem_cons_of_mem _ h)
        rw [show initializeFileMap (f :: fs) m
            = initializeFileMap fs (insertMap m (wpath f) f.modTime) from rfl]
        rw [ih (insertMap m (wpath f) f.modTime) htail]
        simp [lookupMap, insertMap, hne]
  · intro hm
    induction files generalizing m t with
    | nil => exact ⟨t, hm⟩
    | cons f fs ih =>
        by_cases hp : wpath f = p
        · exact ih (insertMap m (wpath f) f.modTime) f.modTime (by simp [lookupMap, insertMap, hp])
        · exact ih (insertMap m (wpath f) f.modTime) t (by simpa [lookupMap, insertMap, hp] using hm)
  · intro hchanged hdeb
    unfold serveStep
    have hd : decide (1 ≤ now - st.lastRebuild) = true := decide_eq_true hdeb
    simp [hchanged, hd]

/-- C9 witness: a concrete rescan leaves the binding of an absent path unchanged
and keeps an existing binding present. -/
theorem C9_rescan_updates_in_place_witness :
    lookupMap (initializeFileMap [⟨[], "a.md".toList, 2⟩] [(["x".toList], 5)]) ["x".toList]
      = lookupMap [(["x".toList], 5)] ["x".toList] ∧
    ∃ u, lookupMap (initializeFileMap [⟨[], "a.md".toList, 2⟩] [(["x".toList], 5)])
      ["x".toList] = some u :=
  ⟨(C9_rescan_updates_in_place [⟨[], "a.md".toList, 2⟩] [(["x".toList], 5)] ["x".toList]
      5 [] [] 0 ⟨[], 0⟩).1 (by decide),
   (C9_rescan_updates_in_place [⟨[], "a.md".toList, 2⟩] [(["x".toList], 5)] ["x".toList]
      5 [] [] 0 ⟨[], 0⟩).2.1 rfl⟩

/-- C10: when a poll tick falls inside the debounce window, no rebuild
happens, yet every visited input file (new or modified ones included) has
its current modification time recorded in the watch map by the detection
walk itself; provided the visible template files were already up to date,
no later tick over the same unmodified trees ever rebuilds — the change is
swallowed rather than deferred. -/
theorem C10_debounced_change_swallowed (inputFiles templateFiles : List WFile)
    (st : ServeState) (now : Nat)
    (hdeb : now - st.lastRebuild < 1)
    (htm : ∀ f ∈ templateFiles, visibleFile f = true →
      fileUnchanged st.lastModified f) :
    (serveStep inputFiles templateFiles now st).2 = false ∧
    (∀ f ∈ inputFiles, visibleFile f = true → endsTmp f = false →
      fileUnchanged (serveStep inputFiles templateFiles now st).1.lastModified f) ∧
    (∀ later, (serveStep inputFiles templateFiles later
      (serveStep inputFiles templateFiles now st).1).2 = false) := by
  have hstep := serveStep_no_rebuild inputFiles templateFiles now st hdeb
  have hrec := tick_records inputFiles templateFiles st.lastModified htm
  refine ⟨by rw [hstep], fun f hf hv ht => ?_, fun later => ?_⟩
  · rw [hstep]
    exact hrec.1 f hf hv ht
  · rw [hstep]
    have hnc : tick inputFiles templateFiles
        ((tick inputFiles templateFiles st.lastModified).map)
        = ⟨(tick inputFiles templateFiles st.lastModified).map, false, none⟩ :=
      tick_nochange inputFiles templateFiles _ hrec.1 hrec.2
    unfold serveStep
    simp [hnc]

/-- C10 witness: a change inside the debounce window on concrete trees is
not rebuilt now and does not rebuild on a later tick either. -/
theorem C10_debounced_change_swallowed_witness :
    (serveStep [⟨[], "a.md".toList, 5⟩] [⟨[], "base.html".toList, 3⟩] 0
      ⟨[(["base.html".toList], 3)], 0⟩).2 = false ∧
    (serveStep [⟨[], "a.md".toList, 5⟩] [⟨[], "base.html".toList, 3⟩] 7
      (serveStep [⟨[], "a.md".toList, 5⟩] [⟨[], "base.html".toList, 3⟩] 0
        ⟨[(["base.html".toList], 3)], 0⟩).1).2 = false := by
  have h := C10_debounced_change_swallowed [⟨[], "a.md".toList, 5⟩]
    [⟨[], "base.html".toList, 3⟩] ⟨[(["base.html".toList], 3)], 0⟩ 0
    (by decide)
    (by
      intro f hf hv
      simp only [List.mem_singleton] at hf
      subst hf
      exact ⟨3, rfl, Nat.le_refl 3⟩)
  exact ⟨h.1, h.2.2 7⟩

end Goss
